import Mathlib

/-!
Verification of the NextRouter passive network telemetry agent.

This file gives a shallow embedding of the core telemetry pipeline:

 - the TCP loss tracker of packet_loss_rust/src/main.rs
   (ConnectionState, detect_packet_loss) and the simpler tracker of
   Network-Traffic-Monitor/src/capture.rs (TcpConnectionState,
   PacketCapture::detect_packet_loss);
 - the frame decoder PacketCapture::parse_packet /
   parse_ipv4_packet / parse_ipv6_packet;
 - the locality classifier NetworkMetrics::is_local_ip,
   build_local_network_ranges, calculate_prefix_length,
   calculate_network_address, calculate_ip_range (Rust shift-overflow
   panics are modeled with Except);
 - the rate accumulator NetworkMetrics::record_packet and
   NetworkMetrics::update_rate_metrics.

Machine integers are modeled as Nat with explicit reduction mod 2^32
where the Rust code uses wrapping u32 arithmetic.  Wall-clock
timestamps (chrono) are omitted; monotonic instants are modeled as
rationals passed in explicitly.  Hash maps are modeled as association
lists.
-/

/-- Rust u32::wrapping_add on values below 2^32. -/
def wadd (a b : Nat) : Nat := (a + b) % 2 ^ 32

/-- Rust u32::wrapping_sub on values below 2^32. -/
def wsub (a b : Nat) : Nat := (a + 2 ^ 32 - b % 2 ^ 32) % 2 ^ 32

/-- The kind of a packet loss event (packet_loss_rust PacketLossType). -/
inductive PacketLossType where
  | missingSequence
  | duplicateSequence
  | outOfOrder
deriving Repr, DecidableEq

/-- One packet loss event (packet_loss_rust PacketLossEvent; the wall-clock
timestamp and the connection identity, constant within one flow, are omitted). -/
structure PacketLossEvent where
  expected_seq : Nat
  received_seq : Nat
  gap_size : Nat
  loss_type : PacketLossType
deriving Repr, DecidableEq

/-- Per-flow tracking state (packet_loss_rust ConnectionState; last_seen
wall-clock timestamp omitted). -/
structure ConnectionState where
  last_seq : Nat
  last_ack : Nat
  expected_seq : Nat
  packet_count : Nat
  loss_events : List PacketLossEvent
  out_of_order_count : Nat
  duplicate_count : Nat
deriving Repr, DecidableEq

/-- The state or_insert_with creates for a fresh flow key in
detect_packet_loss: expected_seq = seq + max(payload, 1) (wrapping). -/
def ConnectionState.init (seq_num ack_num payload_len : Nat) : ConnectionState :=
  { last_seq := seq_num
    last_ack := ack_num
    expected_seq := wadd seq_num (max payload_len 1)
    packet_count := 0
    loss_events := []
    out_of_order_count := 0
    duplicate_count := 0 }

/-- The body of detect_packet_loss acting on an existing flow state
(packet_loss_rust, lines 306-377).  Comparisons seq_num = / > / <
expected_seq and ack_num > last_ack are the plain u32 comparisons of the
source; events are appended in Vec::push order. -/
def detect_step (st : ConnectionState) (seq_num ack_num payload_len : Nat) :
    ConnectionState :=
  let st1 := { st with packet_count := st.packet_count + 1 }
  let st2 :=
    if payload_len > 0 then
      if seq_num = st1.expected_seq then
        { st1 with last_seq := seq_num, expected_seq := wadd seq_num payload_len }
      else if seq_num > st1.expected_seq then
        let gap_size := wsub seq_num st1.expected_seq
        let st1a :=
          if gap_size > 0 ∧ gap_size < 1000000 then
            { st1 with loss_events := st1.loss_events ++
                [{ expected_seq := st1.expected_seq
                   received_seq := seq_num
                   gap_size := gap_size
                   loss_type := .missingSequence }] }
          else st1
        { st1a with last_seq := seq_num, expected_seq := wadd seq_num payload_len }
      else
        if seq_num = st1.last_seq then
          { st1 with duplicate_count := st1.duplicate_count + 1
                     loss_events := st1.loss_events ++
                [{ expected_seq := st1.expected_seq
                   received_seq := seq_num
                   gap_size := 0
                   loss_type := .duplicateSequence }] }
        else
          { st1 with out_of_order_count := st1.out_of_order_count + 1
                     loss_events := st1.loss_events ++
                [{ expected_seq := st1.expected_seq
                   received_seq := seq_num
                   gap_size := wsub st1.expected_seq seq_num
                   loss_type := .outOfOrder }] }
    else st1
  if ack_num > st2.last_ack then { st2 with last_ack := ack_num } else st2

/-- detect_packet_loss for one flow: fetch-or-create the state, then run the
body on the arriving segment. -/
def detect_packet_loss (st? : Option ConnectionState)
    (seq_num ack_num payload_len : Nat) : ConnectionState :=
  detect_step (st?.getD (ConnectionState.init seq_num ack_num payload_len))
    seq_num ack_num payload_len

/-- In-order segment train: sequence numbers follow the payload lengths
starting from s0, each next sequence being the previous expected value. -/
def segsFrom (s0 : Nat) : List Nat → List (Nat × Nat)
  | [] => []
  | L :: rest => (s0, L) :: segsFrom (wadd s0 L) rest

/-- Feed a list of (sequence, payload) segments (ack 0) to one flow,
starting from no state. -/
def runFlow (segs : List (Nat × Nat)) : Option ConnectionState :=
  segs.foldl (fun st? p => some (detect_packet_loss st? p.1 0 p.2)) none

/-- Number of missing-sequence events in an event list: the loss_count of
the specification. -/
def countMissing (es : List PacketLossEvent) : Nat :=
  es.countP (fun e => e.loss_type = .missingSequence)

/-- Feed segments (ack 0) to an existing flow state. -/
def runSteps (st : ConnectionState) (segs : List (Nat × Nat)) : ConnectionState :=
  segs.foldl (fun st p => detect_step st p.1 0 p.2) st

/-- The signed half-space order on 32-bit sequence numbers claimed by the
spec: a is later than b iff (a - b) mod 2^32 lies in [1, 2^31). -/
def halfSpaceLater (a b : Nat) : Bool :=
  1 ≤ wsub a b ∧ wsub a b < 2 ^ 31

/-- Per-connection state of the simpler tracker in capture.rs
(TcpConnectionState); last_active is a monotonic instant in seconds. -/
structure TcpConnectionState where
  expected_seq : Nat
  total_packets : Nat
  lost_packets : Nat
  last_active : ℚ
deriving Repr, DecidableEq

/-- TcpConnectionState::new. -/
def TcpConnectionState.new (seq_num payload_len : Nat) (now : ℚ) :
    TcpConnectionState :=
  { expected_seq := wadd seq_num payload_len
    total_packets := 1
    lost_packets := 0
    last_active := now }

/-- PacketCapture::detect_packet_loss of capture.rs for one flow: returns
early when the payload is empty, otherwise fetch-or-create and update. -/
def capture_detect_packet_loss (st? : Option TcpConnectionState)
    (seq_num payload_len : Nat) (now : ℚ) : Option TcpConnectionState :=
  if payload_len = 0 then st?
  else
    let st := st?.getD (TcpConnectionState.new seq_num payload_len now)
    let st1 := { st with last_active := now, total_packets := st.total_packets + 1 }
    let st2 :=
      if seq_num > st1.expected_seq then
        let gap := wsub seq_num st1.expected_seq
        if gap > 0 ∧ gap < 1000000 then
          { st1 with lost_packets := st1.lost_packets + 1 }
        else st1
      else st1
    some { st2 with expected_seq := wadd seq_num payload_len }

/-- An IP address, as its numeric value: u32 for IPv4, u128 for IPv6.
The Rust code keys counters by the display string of the address; that string
determines and is determined by the (family, value) pair. -/
inductive IpA where
  | v4 (addr : Nat)
  | v6 (addr : Nat)
deriving Repr, DecidableEq

/-- Decoded packet record (capture.rs PacketInfo; the chrono wall-clock
timestamp is omitted). -/
structure PacketInfo where
  protocol : String
  size : Nat
  src_ip : Option IpA
  dst_ip : Option IpA
  src_port : Option Nat
  dst_port : Option Nat
deriving Repr, DecidableEq

/-- Byte i of a frame (0 when out of range; every use below is guarded by a
length check mirroring the pnet constructors). -/
def byteAt (bs : List Nat) (i : Nat) : Nat := bs.getD i 0

/-- Big-endian read of n bytes starting at offset i. -/
def readBE (bs : List Nat) (i n : Nat) : Nat :=
  (List.range n).foldl (fun acc j => acc * 256 + byteAt bs (i + j)) 0

/-- Length of pnet Ipv4Packet::payload() on the IPv4 slice p: from the end
of the variable-length header, capped both by the declared total_length and
by the end of the buffer (saturating, as in the generated pnet accessors). -/
def ipv4PayloadLen (p : List Nat) : Nat :=
  let hl := byteAt p 0 % 16 * 4
  let start := 20 + (hl - 20)
  min (readBE p 2 2 - hl) (p.length - start)

/-- Length of pnet Ipv6Packet::payload() on the IPv6 slice p: the declared
payload_length field, capped by the end of the buffer. -/
def ipv6PayloadLen (p : List Nat) : Nat :=
  min (readBE p 4 2) (p.length - 40)

/-- PacketCapture::parse_packet / parse_ipv4_packet / parse_ipv6_packet:
an ethernet frame shorter than 14 bytes is discarded
(EthernetPacket::new); ethertype 0x0800 requires at least a 20-byte IPv4
header (Ipv4Packet::new), 0x86DD at least a 40-byte IPv6 header
(Ipv6Packet::new); any other ethertype is discarded.  The size of the record is
the IP payload length, its ports are always None (the TCP parse inside
parse_packet only feeds the loss tracker). -/
def parse_packet (bs : List Nat) : Option PacketInfo :=
  if bs.length < 14 then none
  else
    let ethertype := readBE bs 12 2
    if ethertype = 0x0800 then
      let p := bs.drop 14
      if p.length < 20 then none
      else some
        { protocol := "IPv4"
          size := ipv4PayloadLen p
          src_ip := some (.v4 (readBE p 12 4))
          dst_ip := some (.v4 (readBE p 16 4))
          src_port := none
          dst_port := none }
    else if ethertype = 0x86DD then
      let p := bs.drop 14
      if p.length < 40 then none
      else some
        { protocol := "IPv6"
          size := ipv6PayloadLen p
          src_ip := some (.v6 (readBE p 8 16))
          dst_ip := some (.v6 (readBE p 24 16))
          src_port := none
          dst_port := none }
    else none

/-- Rust u32 mask expression of is_local_ip and calculate_ip_range:
the complement of ((1u32 << (32 - p)) - 1).  With overflow checks, the
shift panics when its amount reaches 32 (p = 0), and 32 - p itself panics
for p > 32; both panics are the error case. -/
def rust_prefix_mask (p : Nat) : Except Unit Nat :=
  if p > 32 then .error ()
  else if 32 - p ≥ 32 then .error ()
  else .ok (2 ^ 32 - 1 - (2 ^ (32 - p) - 1))

/-- Loop body of NetworkMetrics::is_local_ip over the configured ranges:
returns true at the first prefix match, propagating a mask-computation
panic when it is reached. -/
def is_local_ip_go (a : Nat) : List (Nat × Nat) → Except Unit Bool
  | [] => .ok false
  | (network, p) :: rest => do
      let mask ← rust_prefix_mask p
      if a &&& mask = network &&& mask then .ok true
      else is_local_ip_go a rest

/-- NetworkMetrics::is_local_ip: IPv4 is matched against the configured
ranges; IPv6 is always non-local. -/
def is_local_ip (ranges : List (Nat × Nat)) (ip : IpA) : Except Unit Bool :=
  match ip with
  | .v4 a => is_local_ip_go a ranges
  | .v6 _ => .ok false

/-- calculate_prefix_length: u32::count_ones of the subnet mask. -/
def calculate_prefix_length (subnet_mask : Nat) : Nat :=
  (List.range 32).countP (fun i => subnet_mask.testBit i)

/-- calculate_network_address: ip AND subnet_mask. -/
def calculate_network_address (ip subnet_mask : Nat) : Nat := ip &&& subnet_mask

/-- NetworkMetrics::build_local_network_ranges: the single configured
(network, prefix-length) pair when the interface has an IPv4 address and
netmask, nothing otherwise. -/
def build_local_network_ranges (local_ip : Option IpA) (local_subnet : Option Nat) :
    List (Nat × Nat) :=
  match local_ip, local_subnet with
  | some (.v4 ip), some subnet =>
      [(calculate_network_address ip subnet, calculate_prefix_length subnet)]
  | _, _ => []

/-- NetworkMetrics::calculate_ip_range: (network AND mask, network AND mask
OR low bits), with the same panicking mask expression. -/
def calculate_ip_range (network p : Nat) : Except Unit (Nat × Nat) := do
  let mask ← rust_prefix_mask p
  .ok (network &&& mask, network &&& mask ||| (2 ^ (32 - p) - 1))

/-- Per-local-IP counters (capture.rs LocalIpCounters); last_active is a
monotonic instant in seconds. -/
structure LocalIpCounters where
  tx_bytes : Nat
  rx_bytes : Nat
  last_tx_bytes : Nat
  last_rx_bytes : Nat
  last_active : ℚ
deriving Repr, DecidableEq

/-- LocalIpCounters::new at instant now. -/
def LocalIpCounters.new (now : ℚ) : LocalIpCounters :=
  { tx_bytes := 0, rx_bytes := 0, last_tx_bytes := 0, last_rx_bytes := 0
    last_active := now }

/-- First value stored under key k in an association list. -/
def lookupKey {α : Type} (m : List (IpA × α)) (k : IpA) : Option α :=
  match m with
  | [] => none
  | (k1, v) :: rest => if k1 = k then some v else lookupKey rest k

/-- HashMap::entry(k).or_insert_with(dflt) followed by a mutation f of the
entry, on the association-list model. -/
def updateEntry {α : Type} (m : List (IpA × α)) (k : IpA) (dflt : α) (f : α → α) :
    List (IpA × α) :=
  match m with
  | [] => [(k, f dflt)]
  | (k1, v) :: rest =>
      if k1 = k then (k1, f v) :: rest else (k1, v) :: updateEntry rest k dflt f

/-- NetworkMetrics::record_packet: when both addresses are present, classify
them with is_local_ip (propagating its panic) and update the matching
directional counter; purely local or purely external traffic leaves the
table unchanged. -/
def record_packet (ranges : List (Nat × Nat))
    (counters : List (IpA × LocalIpCounters)) (pi : PacketInfo) (now : ℚ) :
    Except Unit (List (IpA × LocalIpCounters)) :=
  match pi.src_ip, pi.dst_ip with
  | some src, some dst => do
      let is_local_src ← is_local_ip ranges src
      let is_local_dst ← is_local_ip ranges dst
      if is_local_src ∧ ¬ is_local_dst then
        .ok (updateEntry counters src (LocalIpCounters.new now)
          (fun c => { c with tx_bytes := c.tx_bytes + pi.size, last_active := now }))
      else if ¬ is_local_src ∧ is_local_dst then
        .ok (updateEntry counters dst (LocalIpCounters.new now)
          (fun c => { c with rx_bytes := c.rx_bytes + pi.size, last_active := now }))
      else .ok counters
  | _, _ => .ok counters

/-- tx_bytes stored for key k, 0 when the key is absent. -/
def txOf (m : List (IpA × LocalIpCounters)) (k : IpA) : Nat :=
  match lookupKey m k with
  | some c => c.tx_bytes
  | none => 0

/-- rx_bytes stored for key k, 0 when the key is absent. -/
def rxOf (m : List (IpA × LocalIpCounters)) (k : IpA) : Nat :=
  match lookupKey m k with
  | some c => c.rx_bytes
  | none => 0

/-- Snapshot tx counter stored for key k, 0 when the key is absent. -/
def lastTxOf (m : List (IpA × LocalIpCounters)) (k : IpA) : Nat :=
  match lookupKey m k with
  | some c => c.last_tx_bytes
  | none => 0

/-- Snapshot rx counter stored for key k, 0 when the key is absent. -/
def lastRxOf (m : List (IpA × LocalIpCounters)) (k : IpA) : Nat :=
  match lookupKey m k with
  | some c => c.last_rx_bytes
  | none => 0

/-- last_active stored for key k, when present. -/
def lastActiveOf (m : List (IpA × LocalIpCounters)) (k : IpA) : Option ℚ :=
  (lookupKey m k).map (fun c => c.last_active)

/-- The mutable fields of NetworkMetrics touched by update_rate_metrics:
the internal per-IP counter table, the published per-IP rate gauge vectors,
the published totals, and the last successful tick instant. -/
structure NetworkMetricsState where
  counters : List (IpA × LocalIpCounters)
  tx_rate_gauge : List (IpA × ℚ)
  rx_rate_gauge : List (IpA × ℚ)
  total_tx_rate : ℚ
  total_rx_rate : ℚ
  last_update_time : ℚ
deriving Repr, DecidableEq

/-- Gauge.set for label k on a gauge vector. -/
def gaugeSet (g : List (IpA × ℚ)) (k : IpA) (v : ℚ) : List (IpA × ℚ) :=
  updateEntry g k 0 (fun _ => v)

/-- Intermediate per-entry result of the first loop of
update_rate_metrics. -/
structure RateRow where
  ip : IpA
  tx_rate : ℚ
  rx_rate : ℚ
  updated : LocalIpCounters
  inactive : Bool
deriving Repr, DecidableEq

/-- NetworkMetrics::update_rate_metrics at instant now.  A tick less than
1.0 s after the previous successful tick returns immediately.  Otherwise,
per entry: rate = (cumulative - snapshot) / elapsed, gauges are set,
snapshots advanced, entries idle for more than 300 s collected; then the
collected entries have their gauges zeroed and are removed, the totals are
published and the tick instant advances.  The u64 counter subtractions
cannot underflow because snapshots are copies of earlier cumulative
values. -/
def update_rate_metrics (st : NetworkMetricsState) (now : ℚ) :
    NetworkMetricsState :=
  let elapsed := now - st.last_update_time
  if elapsed < 1 then st
  else
    let rows : List RateRow := st.counters.map (fun p =>
      { ip := p.1
        tx_rate := ((p.2.tx_bytes - p.2.last_tx_bytes : Nat) : ℚ) / elapsed
        rx_rate := ((p.2.rx_bytes - p.2.last_rx_bytes : Nat) : ℚ) / elapsed
        updated := { p.2 with last_tx_bytes := p.2.tx_bytes
                              last_rx_bytes := p.2.rx_bytes }
        inactive := decide (now - p.2.last_active > 300) })
    let txg1 := rows.foldl (fun g r => gaugeSet g r.ip r.tx_rate) st.tx_rate_gauge
    let rxg1 := rows.foldl (fun g r => gaugeSet g r.ip r.rx_rate) st.rx_rate_gauge
    let txg2 := rows.foldl (fun g r => if r.inactive then gaugeSet g r.ip 0 else g) txg1
    let rxg2 := rows.foldl (fun g r => if r.inactive then gaugeSet g r.ip 0 else g) rxg1
    { counters := (rows.filter (fun r => ¬ r.inactive)).map (fun r => (r.ip, r.updated))
      tx_rate_gauge := txg2
      rx_rate_gauge := rxg2
      total_tx_rate := (rows.map (fun r => r.tx_rate)).sum
      total_rx_rate := (rows.map (fun r => r.rx_rate)).sum
      last_update_time := now }

/-- A concrete 54-byte ethernet frame: 14-byte ethernet header with
ethertype 0x0800, a 20-byte IPv4 header (version 4, IHL 5,
total_length 40, protocol TCP, source 10.0.0.5, destination 8.8.8.8),
and a 20-byte TCP header. -/
def exampleFrame : List Nat :=
  [0, 0, 0, 0, 0, 0, 0, 0, 0, 0, 0, 0, 8, 0,
   69, 0, 0, 40, 0, 0, 0, 0, 64, 6, 0, 0, 10, 0, 0, 5, 8, 8, 8, 8,
   0, 0, 0, 0, 0, 0, 0, 0, 0, 0, 0, 0, 0, 0, 0, 0, 0, 0, 0, 0]

theorem wadd_eq_of_lt {a b : Nat} (h : a + b < 2 ^ 32) : wadd a b = a + b := by
  rw [wadd]; exact Nat.mod_eq_of_lt h

theorem wsub_eq_of_le {a b : Nat} (hba : b ≤ a) (ha : a < 2 ^ 32) :
    wsub a b = a - b := by
  have hb : b % 2 ^ 32 = b := Nat.mod_eq_of_lt (lt_of_le_of_lt hba ha)
  have h1 : a + 2 ^ 32 - b = a - b + 2 ^ 32 := by omega
  rw [wsub, hb, h1, Nat.add_mod_right, Nat.mod_eq_of_lt (by omega)]

theorem lookupKey_updateEntry_self {α : Type} (m : List (IpA × α)) (k : IpA)
    (dflt : α) (f : α → α) :
    lookupKey (updateEntry m k dflt f) k = some (f ((lookupKey m k).getD dflt)) := by
  induction m with
  | nil => simp [updateEntry, lookupKey]
  | cons hd tl ih =>
      by_cases h : hd.1 = k
      · simp [updateEntry, lookupKey, h]
      · simp [updateEntry, lookupKey, h, ih]

theorem lookupKey_updateEntry_ne {α : Type} (m : List (IpA × α)) (k : IpA)
    (dflt : α) (f : α → α) (k1 : IpA) (h : k1 ≠ k) :
    lookupKey (updateEntry m k dflt f) k1 = lookupKey m k1 := by
  have hk : ¬ k = k1 := fun h1 => h h1.symm
  induction m with
  | nil => simp [updateEntry, lookupKey, hk]
  | cons hd tl ih =>
      by_cases h2 : hd.1 = k
      · simp [updateEntry, lookupKey, h2, hk]
      · by_cases h4 : hd.1 = k1 <;>
          simp [updateEntry, lookupKey, h2, h4, h, hk, ih]

/-- C7: a sampling tick less than 1.0 second after the previous successful
tick is a complete no-op: no gauge, counter, snapshot or eviction happens
and the last-update instant does not advance — the state is returned
unchanged. -/
theorem update_rate_metrics_subsecond_noop (st : NetworkMetricsState) (now : ℚ)
    (h : now - st.last_update_time < 1) : update_rate_metrics st now = st := by
  unfold update_rate_metrics
  rw [if_pos h]

/-- Witness for C7 at a concrete state and a half-second tick. -/
theorem update_rate_metrics_subsecond_noop_witness :
    update_rate_metrics
      { counters := [], tx_rate_gauge := [], rx_rate_gauge := []
        total_tx_rate := 0, total_rx_rate := 0, last_update_time := 0 } (1 / 2) =
      { counters := [], tx_rate_gauge := [], rx_rate_gauge := []
        total_tx_rate := 0, total_rx_rate := 0, last_update_time := 0 } :=
  update_rate_metrics_subsecond_noop _ _ (by norm_num)

/-- C1: on a concrete accepted 54-byte IPv4 ethernet frame the decoder
reports size = 20, the IP-layer payload length, not the 54-byte ethernet
frame length the specification fixes as the contract. -/
theorem parse_packet_size_is_ip_payload_length :
    parse_packet exampleFrame =
      some { protocol := "IPv4", size := 20
             src_ip := some (.v4 167772165), dst_ip := some (.v4 134744072)
             src_port := none, dst_port := none } ∧
    exampleFrame.length = 54 ∧ (20 : Nat) ≠ 54 := by
  refine ⟨by decide, by decide, by decide⟩

/-- C9: the decoder is total on arbitrary byte lists and discards exactly
the malformed or unsupported frames: those shorter than the 14-byte
ethernet header, those with an ethertype other than IPv4/IPv6, and those
whose network-layer slice is shorter than the minimum IPv4 (20 bytes) or
IPv6 (40 bytes) header. -/
theorem parse_packet_discard_characterization (bs : List Nat) :
    parse_packet bs = none ↔
      bs.length < 14 ∨
      (readBE bs 12 2 ≠ 0x0800 ∧ readBE bs 12 2 ≠ 0x86DD) ∨
      (readBE bs 12 2 = 0x0800 ∧ (bs.drop 14).length < 20) ∨
      (readBE bs 12 2 = 0x86DD ∧ (bs.drop 14).length < 40) := by
  unfold parse_packet
  by_cases h14 : bs.length < 14
  · simp [h14]
  · by_cases h4 : readBE bs 12 2 = 0x0800
    · have h6 : ¬ readBE bs 12 2 = 0x86DD := by rw [h4]; decide
      by_cases h20 : (bs.drop 14).length < 20 <;> simp [h14, h4, h6, h20]
    · by_cases h6 : readBE bs 12 2 = 0x86DD
      · by_cases h40 : (bs.drop 14).length < 40 <;> simp [h14, h4, h6, h40]
      · simp [h14, h4, h6]

theorem land_self_aux (n : Nat) : n &&& n = n :=
  Nat.eq_of_testBit_eq (fun i => by simp [Nat.testBit_land])

theorem is_local_ip_go_total (a : Nat) : ∀ ranges : List (Nat × Nat),
    (∀ r ∈ ranges, 1 ≤ r.2 ∧ r.2 ≤ 32) → ∃ b, is_local_ip_go a ranges = .ok b := by
  intro ranges
  induction ranges with
  | nil => exact fun _ => ⟨false, rfl⟩
  | cons hd tl ih =>
      intro h
      obtain ⟨n, p⟩ := hd
      obtain ⟨h1, h2⟩ := h (n, p) (by simp)
      set M : Nat := 2 ^ 32 - 1 - (2 ^ (32 - p) - 1) with hM
      have hmask : rust_prefix_mask p = .ok M := by
        unfold rust_prefix_mask
        rw [if_neg (by omega), if_neg (by omega)]
      obtain ⟨b, hb⟩ := ih (fun r hr => h r (List.mem_cons_of_mem _ hr))
      by_cases hm : a &&& M = n &&& M
      · exact ⟨true, by simp [is_local_ip_go, hmask, hm, Bind.bind, Except.bind]⟩
      · refine ⟨b, ?_⟩
        simp [is_local_ip_go, hmask, hm, Bind.bind, Except.bind]
        exact hb

/-- C10: classifying any IPv4 address panics (modeled as the error outcome)
when the configured netmask is 0.0.0.0, whose popcount prefix 0 makes the
mask expression shift a u32 by 32; with every configured prefix in [1, 32]
the classifier is panic-free; calculate_ip_range panics the same way at
prefix 0. -/
theorem is_local_ip_prefix_zero_panics :
    (∀ ip a : Nat,
      is_local_ip (build_local_network_ranges (some (.v4 ip)) (some 0)) (.v4 a) =
        .error ()) ∧
    (∀ ranges : List (Nat × Nat), (∀ r ∈ ranges, 1 ≤ r.2 ∧ r.2 ≤ 32) →
      ∀ ip : IpA, ∃ b, is_local_ip ranges ip = .ok b) ∧
    (∀ network : Nat, calculate_ip_range network 0 = .error ()) := by
  refine ⟨?_, ?_, ?_⟩
  · intro ip a
    have h0 : calculate_prefix_length 0 = 0 := by decide
    simp [is_local_ip, build_local_network_ranges, h0, is_local_ip_go,
      rust_prefix_mask, Bind.bind, Except.bind]
  · intro ranges h ip
    match ip with
    | .v6 x => exact ⟨false, rfl⟩
    | .v4 a => exact is_local_ip_go_total a ranges h
  · intro network
    simp [calculate_ip_range, rust_prefix_mask, Bind.bind, Except.bind]

/-- Witness for C10: the netmask-0 configuration errors on a concrete
address, and a concrete one-range table with prefix 8 is panic-free. -/
theorem is_local_ip_prefix_zero_panics_witness :
    is_local_ip (build_local_network_ranges (some (.v4 3232235786)) (some 0))
      (.v4 167772161) = .error () ∧
    (∃ b, is_local_ip [(167772160, 8)] (.v4 167772161) = .ok b) ∧
    calculate_ip_range 167772160 0 = .error () :=
  ⟨is_local_ip_prefix_zero_panics.1 3232235786 167772161,
   is_local_ip_prefix_zero_panics.2.1 [(167772160, 8)] (by decide) (.v4 167772161),
   is_local_ip_prefix_zero_panics.2.2 167772160⟩

/-- Counterexample to C8: with the interface configured as 192.168.1.10 /
255.255.255.0, the reserved address 10.0.0.1 (first octet 10, so inside
10/8) is classified non-local: the classifier consults only the configured
interface range, not the reserved ranges. -/
theorem is_local_ip_ignores_reserved_ranges :
    (167772161 : Nat) / 2 ^ 24 = 10 ∧
    is_local_ip (build_local_network_ranges (some (.v4 3232235786)) (some 4294967040))
      (.v4 167772161) = .ok false := by
  exact ⟨by decide, by rfl⟩

theorem calculate_prefix_length_mask (p : Nat) (h1 : 1 ≤ p) (h2 : p ≤ 32) :
    calculate_prefix_length (2 ^ 32 - 2 ^ (32 - p)) = p := by
  interval_cases p <;> decide

/-- C8 as amended: the classifier matches an IPv4 address against the single
configured interface range only (network = ip AND mask, prefix =
popcount(mask)) — for a contiguous netmask of popcount p in [1, 32] an
address is local exactly when it agrees with the interface address on the
mask — and IPv6 addresses are unconditionally non-local.  The reserved
ranges 10/8, 172.16/12, 192.168/16, 127/8, 169.254/16, 0/8, 224/4, 240/4
are not part of this classifier. -/
theorem is_local_ip_configured_range_only (ip mask p a : Nat)
    (hp1 : 1 ≤ p) (hp2 : p ≤ 32) (hmask : mask = 2 ^ 32 - 2 ^ (32 - p)) :
    (is_local_ip (build_local_network_ranges (some (.v4 ip)) (some mask)) (.v4 a) =
        .ok true ↔ a &&& mask = ip &&& mask) ∧
    (∀ x, is_local_ip (build_local_network_ranges (some (.v4 ip)) (some mask)) (.v6 x) =
        .ok false) := by
  have hpow1 : 1 ≤ 2 ^ (32 - p) := Nat.one_le_two_pow
  have hpowle : 2 ^ (32 - p) ≤ 2 ^ 32 := Nat.pow_le_pow_right (by norm_num) (by omega)
  have hcpl : calculate_prefix_length mask = p := by
    rw [hmask]; exact calculate_prefix_length_mask p hp1 hp2
  have hmask2 : rust_prefix_mask p = .ok mask := by
    unfold rust_prefix_mask
    rw [if_neg (by omega), if_neg (by omega), hmask]
    congr 1
    omega
  have hland : (ip &&& mask) &&& mask = ip &&& mask := by
    rw [Nat.land_assoc, land_self_aux]
  constructor
  · by_cases hm : a &&& mask = ip &&& mask <;>
      simp [is_local_ip, build_local_network_ranges, calculate_network_address,
        hcpl, is_local_ip_go, hmask2, Bind.bind, Except.bind, hland, hm]
  · intro x
    simp [is_local_ip]

/-- Witness for the amended C8 at ip 192.168.1.10, netmask 255.255.255.0
(p = 24), testing the in-range address 192.168.1.77. -/
theorem is_local_ip_configured_range_only_witness :
    (is_local_ip (build_local_network_ranges (some (.v4 3232235786)) (some 4294967040))
        (.v4 3232235853) = .ok true ↔
      3232235853 &&& 4294967040 = 3232235786 &&& 4294967040) ∧
    (∀ x, is_local_ip (build_local_network_ranges (some (.v4 3232235786))
        (some 4294967040)) (.v6 x) = .ok false) :=
  is_local_ip_configured_range_only 3232235786 4294967040 24 3232235853
    (by norm_num) (by norm_num) (by norm_num)

theorem tx_update_effect (m : List (IpA × LocalIpCounters)) (k : IpA) (now : ℚ)
    (sz : Nat) :
    txOf (updateEntry m k (LocalIpCounters.new now)
        (fun c => { c with tx_bytes := c.tx_bytes + sz, last_active := now })) k =
      txOf m k + sz ∧
    rxOf (updateEntry m k (LocalIpCounters.new now)
        (fun c => { c with tx_bytes := c.tx_bytes + sz, last_active := now })) k =
      rxOf m k ∧
    lastTxOf (updateEntry m k (LocalIpCounters.new now)
        (fun c => { c with tx_bytes := c.tx_bytes + sz, last_active := now })) k =
      lastTxOf m k ∧
    lastRxOf (updateEntry m k (LocalIpCounters.new now)
        (fun c => { c with tx_bytes := c.tx_bytes + sz, last_active := now })) k =
      lastRxOf m k ∧
    lastActiveOf (updateEntry m k (LocalIpCounters.new now)
        (fun c => { c with tx_bytes := c.tx_bytes + sz, last_active := now })) k =
      some now := by
  have hself := lookupKey_updateEntry_self m k (LocalIpCounters.new now)
    (fun c => { c with tx_bytes := c.tx_bytes + sz, last_active := now })
  cases h : lookupKey m k with
  | none =>
      rw [h] at hself
      simp only [Option.getD_none] at hself
      simp only [txOf, rxOf, lastTxOf, lastRxOf, lastActiveOf, hself, h]
      simp [LocalIpCounters.new]
  | some c =>
      rw [h] at hself
      simp only [Option.getD_some] at hself
      simp only [txOf, rxOf, lastTxOf, lastRxOf, lastActiveOf, hself, h]
      simp

theorem rx_update_effect (m : List (IpA × LocalIpCounters)) (k : IpA) (now : ℚ)
    (sz : Nat) :
    rxOf (updateEntry m k (LocalIpCounters.new now)
        (fun c => { c with rx_bytes := c.rx_bytes + sz, last_active := now })) k =
      rxOf m k + sz ∧
    txOf (updateEntry m k (LocalIpCounters.new now)
        (fun c => { c with rx_bytes := c.rx_bytes + sz, last_active := now })) k =
      txOf m k ∧
    lastTxOf (updateEntry m k (LocalIpCounters.new now)
        (fun c => { c with rx_bytes := c.rx_bytes + sz, last_active := now })) k =
      lastTxOf m k ∧
    lastRxOf (updateEntry m k (LocalIpCounters.new now)
        (fun c => { c with rx_bytes := c.rx_bytes + sz, last_active := now })) k =
      lastRxOf m k ∧
    lastActiveOf (updateEntry m k (LocalIpCounters.new now)
        (fun c => { c with rx_bytes := c.rx_bytes + sz, last_active := now })) k =
      some now := by
  have hself := lookupKey_updateEntry_self m k (LocalIpCounters.new now)
    (fun c => { c with rx_bytes := c.rx_bytes + sz, last_active := now })
  cases h : lookupKey m k with
  | none =>
      rw [h] at hself
      simp only [Option.getD_none] at hself
      simp only [txOf, rxOf, lastTxOf, lastRxOf, lastActiveOf, hself, h]
      simp [LocalIpCounters.new]
  | some c =>
      rw [h] at hself
      simp only [Option.getD_some] at hself
      simp only [txOf, rxOf, lastTxOf, lastRxOf, lastActiveOf, hself, h]
      simp

/-- C2: recording a decoded record with both addresses present has exactly
one of three effects.  If the source is local and the destination is not,
the tx_bytes counter of the source grows by exactly the size of the record and its
last_active is refreshed, every other field and entry being untouched; the
symmetric rx update happens when only the destination is local; otherwise
the counter table is returned unchanged. -/
theorem record_packet_single_direction (ranges : List (Nat × Nat))
    (m : List (IpA × LocalIpCounters)) (pi : PacketInfo) (now : ℚ)
    (src dst : IpA) (ls ld : Bool)
    (hsrc : pi.src_ip = some src) (hdst : pi.dst_ip = some dst)
    (hls : is_local_ip ranges src = .ok ls)
    (hld : is_local_ip ranges dst = .ok ld) :
    (ls = true → ld = false →
      ∃ m1, record_packet ranges m pi now = .ok m1 ∧
        txOf m1 src = txOf m src + pi.size ∧
        rxOf m1 src = rxOf m src ∧
        lastTxOf m1 src = lastTxOf m src ∧
        lastRxOf m1 src = lastRxOf m src ∧
        lastActiveOf m1 src = some now ∧
        (∀ k, k ≠ src → lookupKey m1 k = lookupKey m k)) ∧
    (ls = false → ld = true →
      ∃ m1, record_packet ranges m pi now = .ok m1 ∧
        rxOf m1 dst = rxOf m dst + pi.size ∧
        txOf m1 dst = txOf m dst ∧
        lastTxOf m1 dst = lastTxOf m dst ∧
        lastRxOf m1 dst = lastRxOf m dst ∧
        lastActiveOf m1 dst = some now ∧
        (∀ k, k ≠ dst → lookupKey m1 k = lookupKey m k)) ∧
    (ls = ld → record_packet ranges m pi now = .ok m) := by
  refine ⟨?_, ?_, ?_⟩
  · intro hl1 hl2
    subst hl1; subst hl2
    refine ⟨_, ?_, (tx_update_effect m src now pi.size).1,
      (tx_update_effect m src now pi.size).2.1,
      (tx_update_effect m src now pi.size).2.2.1,
      (tx_update_effect m src now pi.size).2.2.2.1,
      (tx_update_effect m src now pi.size).2.2.2.2,
      fun k hk => lookupKey_updateEntry_ne m src _ _ k hk⟩
    simp [record_packet, hsrc, hdst, hls, hld, Bind.bind, Except.bind]
  · intro hl1 hl2
    subst hl1; subst hl2
    refine ⟨_, ?_, (rx_update_effect m dst now pi.size).1,
      (rx_update_effect m dst now pi.size).2.1,
      (rx_update_effect m dst now pi.size).2.2.1,
      (rx_update_effect m dst now pi.size).2.2.2.1,
      (rx_update_effect m dst now pi.size).2.2.2.2,
      fun k hk => lookupKey_updateEntry_ne m dst _ _ k hk⟩
    simp [record_packet, hsrc, hdst, hls, hld, Bind.bind, Except.bind]
  · intro hl
    subst hl
    cases ls <;>
      simp [record_packet, hsrc, hdst, hls, hld, Bind.bind, Except.bind]

/-- Witness for C2: a 100-byte record from local 10.0.0.5 to external
8.8.8.8 against the 10/8 range, on an empty counter table at instant 7. -/
theorem record_packet_single_direction_witness :
    (true = true → false = false →
      ∃ m1, record_packet [(167772160, 8)] []
          { protocol := "IPv4", size := 100
            src_ip := some (.v4 167772165), dst_ip := some (.v4 134744072)
            src_port := none, dst_port := none } 7 = .ok m1 ∧
        txOf m1 (.v4 167772165) = txOf [] (.v4 167772165) + 100 ∧
        rxOf m1 (.v4 167772165) = rxOf [] (.v4 167772165) ∧
        lastTxOf m1 (.v4 167772165) = lastTxOf [] (.v4 167772165) ∧
        lastRxOf m1 (.v4 167772165) = lastRxOf [] (.v4 167772165) ∧
        lastActiveOf m1 (.v4 167772165) = some 7 ∧
        (∀ k, k ≠ IpA.v4 167772165 → lookupKey m1 k = lookupKey [] k)) ∧
    (true = false → false = true →
      ∃ m1, record_packet [(167772160, 8)] []
          { protocol := "IPv4", size := 100
            src_ip := some (.v4 167772165), dst_ip := some (.v4 134744072)
            src_port := none, dst_port := none } 7 = .ok m1 ∧
        rxOf m1 (.v4 134744072) = rxOf [] (.v4 134744072) + 100 ∧
        txOf m1 (.v4 134744072) = txOf [] (.v4 134744072) ∧
        lastTxOf m1 (.v4 134744072) = lastTxOf [] (.v4 134744072) ∧
        lastRxOf m1 (.v4 134744072) = lastRxOf [] (.v4 134744072) ∧
        lastActiveOf m1 (.v4 134744072) = some 7 ∧
        (∀ k, k ≠ IpA.v4 134744072 → lookupKey m1 k = lookupKey [] k)) ∧
    (true = false → record_packet [(167772160, 8)] []
        { protocol := "IPv4", size := 100
          src_ip := some (.v4 167772165), dst_ip := some (.v4 134744072)
          src_port := none, dst_port := none } 7 = .ok []) :=
  record_packet_single_direction [(167772160, 8)] []
    { protocol := "IPv4", size := 100
      src_ip := some (.v4 167772165), dst_ip := some (.v4 134744072)
      src_port := none, dst_port := none } 7
    (.v4 167772165) (.v4 134744072) true false rfl rfl rfl rfl

theorem detect_step_inorder (st : ConnectionState) (s a L : Nat) (hL : 0 < L)
    (heq : s = st.expected_seq) :
    detect_step st s a L =
      { st with packet_count := st.packet_count + 1, last_seq := s,
                expected_seq := wadd s L, last_ack := max st.last_ack a } := by
  subst heq
  simp [detect_step, hL]
  split <;> simp [ConnectionState.mk.injEq] <;> omega

theorem detect_step_gap (st : ConnectionState) (s a L : Nat) (hL : 0 < L)
    (hgt : st.expected_seq < s) (hs : s < 2 ^ 32) :
    detect_step st s a L =
      { st with packet_count := st.packet_count + 1, last_seq := s,
                expected_seq := wadd s L, last_ack := max st.last_ack a,
                loss_events :=
                  if s - st.expected_seq < 1000000 then
                    st.loss_events ++
                      [{ expected_seq := st.expected_seq, received_seq := s,
                         gap_size := s - st.expected_seq,
                         loss_type := .missingSequence }]
                  else st.loss_events } := by
  have hne : ¬ s = st.expected_seq := by omega
  have hw : wsub s st.expected_seq = s - st.expected_seq :=
    wsub_eq_of_le (le_of_lt hgt) hs
  have hpos : 0 < s - st.expected_seq := by omega
  simp [detect_step, hL, hne, hgt, hw, hpos]
  by_cases hless : s - st.expected_seq < 1000000 <;>
    simp [hless] <;> (split <;> simp [ConnectionState.mk.injEq] <;> omega)

theorem detect_step_old (st : ConnectionState) (s a L : Nat) (hL : 0 < L)
    (hlt : s < st.expected_seq) (hex : st.expected_seq < 2 ^ 32) :
    detect_step st s a L =
      if s = st.last_seq then
        { st with packet_count := st.packet_count + 1,
                  duplicate_count := st.duplicate_count + 1,
                  last_ack := max st.last_ack a,
                  loss_events := st.loss_events ++
                    [{ expected_seq := st.expected_seq, received_seq := s,
                       gap_size := 0, loss_type := .duplicateSequence }] }
      else
        { st with packet_count := st.packet_count + 1,
                  out_of_order_count := st.out_of_order_count + 1,
                  last_ack := max st.last_ack a,
                  loss_events := st.loss_events ++
                    [{ expected_seq := st.expected_seq, received_seq := s,
                       gap_size := st.expected_seq - s,
                       loss_type := .outOfOrder }] } := by
  have hne : ¬ s = st.expected_seq := by omega
  have hngt : ¬ s > st.expected_seq := by omega
  have hw : wsub st.expected_seq s = st.expected_seq - s :=
    wsub_eq_of_le (le_of_lt hlt) hex
  by_cases hdup : s = st.last_seq
  · subst hdup
    simp [detect_step, hL, hne, hngt, hw]
    split <;> simp [ConnectionState.mk.injEq] <;> omega
  · simp [detect_step, hL, hne, hngt, hdup, hw]
    split <;> simp [ConnectionState.mk.injEq] <;> omega

theorem countMissing_append (es : List PacketLossEvent) (e : PacketLossEvent) :
    countMissing (es ++ [e]) =
      countMissing es + (if e.loss_type = .missingSequence then 1 else 0) := by
  simp [countMissing, List.countP_append, List.countP_cons]

theorem capture_detect_gap (ct : TcpConnectionState) (s L : Nat) (now : ℚ)
    (hL : 0 < L) (hs : s < 2 ^ 32) (hgt : ct.expected_seq < s) :
    capture_detect_packet_loss (some ct) s L now =
      some { expected_seq := wadd s L,
             total_packets := ct.total_packets + 1,
             lost_packets := ct.lost_packets +
               (if s - ct.expected_seq < 1000000 then 1 else 0),
             last_active := now } := by
  have hne : ¬ L = 0 := by omega
  have hw : wsub s ct.expected_seq = s - ct.expected_seq :=
    wsub_eq_of_le (le_of_lt hgt) hs
  have hpos : 0 < s - ct.expected_seq := by omega
  by_cases hless : s - ct.expected_seq < 1000000 <;>
    simp [capture_detect_packet_loss, hne, hgt, hw, hpos, hless,
      TcpConnectionState.mk.injEq]

/-- C4: a data segment later (in the plain u32 order of the code) than
expected_next with gap G: when 0 < G < 1,000,000 exactly one
missing-sequence loss event carrying G is recorded, when G >= 1,000,000 no
event is recorded and no loss counter changes; in both cases the state
resynchronizes to expected_next = s + L and last_observed = s.  The
counter-only tracker of capture.rs increments lost_packets under the same
condition. -/
theorem detect_gap_effects (st : ConnectionState) (s a L : Nat)
    (hL : 0 < L) (hs : s < 2 ^ 32) (hgt : st.expected_seq < s) :
    ((detect_step st s a L).expected_seq = wadd s L ∧
     (detect_step st s a L).last_seq = s ∧
     (detect_step st s a L).packet_count = st.packet_count + 1 ∧
     (detect_step st s a L).duplicate_count = st.duplicate_count ∧
     (detect_step st s a L).out_of_order_count = st.out_of_order_count ∧
     (s - st.expected_seq < 1000000 →
        (detect_step st s a L).loss_events = st.loss_events ++
          [{ expected_seq := st.expected_seq, received_seq := s,
             gap_size := s - st.expected_seq, loss_type := .missingSequence }] ∧
        countMissing (detect_step st s a L).loss_events =
          countMissing st.loss_events + 1) ∧
     (1000000 ≤ s - st.expected_seq →
        (detect_step st s a L).loss_events = st.loss_events)) ∧
    (∀ (ct : TcpConnectionState) (now : ℚ), ct.expected_seq < s →
       capture_detect_packet_loss (some ct) s L now =
         some { expected_seq := wadd s L, total_packets := ct.total_packets + 1,
                lost_packets := ct.lost_packets +
                  (if s - ct.expected_seq < 1000000 then 1 else 0),
                last_active := now }) := by
  constructor
  · rw [detect_step_gap st s a L hL hgt hs]
    refine ⟨rfl, rfl, rfl, rfl, rfl, ?_, ?_⟩
    · intro h
      rw [if_pos h]
      exact ⟨rfl, by rw [countMissing_append]; simp⟩
    · intro h
      rw [if_neg (by omega)]
  · intro ct now hgt2
    exact capture_detect_gap ct s L now hL hs hgt2

/-- Witness for C4 at a concrete tracker state with expected_next 1100
receiving sequence 1200 (gap 100) with payload 50 and ack 0. -/
theorem detect_gap_effects_witness :
    ((detect_step ⟨1000, 0, 1100, 3, [], 0, 0⟩ 1200 0 50).expected_seq =
        wadd 1200 50 ∧
     (detect_step ⟨1000, 0, 1100, 3, [], 0, 0⟩ 1200 0 50).last_seq = 1200 ∧
     (detect_step ⟨1000, 0, 1100, 3, [], 0, 0⟩ 1200 0 50).packet_count = 3 + 1 ∧
     (detect_step ⟨1000, 0, 1100, 3, [], 0, 0⟩ 1200 0 50).duplicate_count = 0 ∧
     (detect_step ⟨1000, 0, 1100, 3, [], 0, 0⟩ 1200 0 50).out_of_order_count = 0 ∧
     (1200 - 1100 < 1000000 →
        (detect_step ⟨1000, 0, 1100, 3, [], 0, 0⟩ 1200 0 50).loss_events = [] ++
          [{ expected_seq := 1100, received_seq := 1200,
             gap_size := 1200 - 1100, loss_type := .missingSequence }] ∧
        countMissing (detect_step ⟨1000, 0, 1100, 3, [], 0, 0⟩ 1200 0 50).loss_events =
          countMissing [] + 1) ∧
     (1000000 ≤ 1200 - 1100 →
        (detect_step ⟨1000, 0, 1100, 3, [], 0, 0⟩ 1200 0 50).loss_events = [])) ∧
    (∀ (ct : TcpConnectionState) (now : ℚ), ct.expected_seq < 1200 →
       capture_detect_packet_loss (some ct) 1200 50 now =
         some { expected_seq := wadd 1200 50, total_packets := ct.total_packets + 1,
                lost_packets := ct.lost_packets +
                  (if 1200 - ct.expected_seq < 1000000 then 1 else 0),
                last_active := now }) :=
  detect_gap_effects ⟨1000, 0, 1100, 3, [], 0, 0⟩ 1200 0 50
    (by decide) (by decide) (by decide)

/-- C5: a data segment earlier (plain u32 order) than expected_next either
repeats last_observed — one duplicate event, duplicate_count + 1, loss and
reorder counts unchanged — or differs from it — one out-of-order event
carrying the backward gap expected_next - s, reorder_count + 1, loss and
duplicate counts unchanged; expected_next and last_observed stay put in
both cases. -/
theorem detect_duplicate_reorder_effects (st : ConnectionState) (s a L : Nat)
    (hL : 0 < L) (hex : st.expected_seq < 2 ^ 32) (hlt : s < st.expected_seq) :
    (s = st.last_seq →
       (detect_step st s a L).duplicate_count = st.duplicate_count + 1 ∧
       (detect_step st s a L).loss_events = st.loss_events ++
         [{ expected_seq := st.expected_seq, received_seq := s,
            gap_size := 0, loss_type := .duplicateSequence }] ∧
       (detect_step st s a L).out_of_order_count = st.out_of_order_count ∧
       countMissing (detect_step st s a L).loss_events =
         countMissing st.loss_events ∧
       (detect_step st s a L).expected_seq = st.expected_seq ∧
       (detect_step st s a L).last_seq = st.last_seq ∧
       (detect_step st s a L).packet_count = st.packet_count + 1) ∧
    (s ≠ st.last_seq →
       (detect_step st s a L).out_of_order_count = st.out_of_order_count + 1 ∧
       (detect_step st s a L).loss_events = st.loss_events ++
         [{ expected_seq := st.expected_seq, received_seq := s,
            gap_size := st.expected_seq - s, loss_type := .outOfOrder }] ∧
       (detect_step st s a L).duplicate_count = st.duplicate_count ∧
       countMissing (detect_step st s a L).loss_events =
         countMissing st.loss_events ∧
       (detect_step st s a L).expected_seq = st.expected_seq ∧
       (detect_step st s a L).last_seq = st.last_seq ∧
       (detect_step st s a L).packet_count = st.packet_count + 1) := by
  rw [detect_step_old st s a L hL hlt hex]
  constructor
  · intro h
    rw [if_pos h]
    refine ⟨rfl, rfl, rfl, ?_, rfl, rfl, rfl⟩
    rw [countMissing_append]; simp
  · intro h
    rw [if_neg h]
    refine ⟨rfl, rfl, rfl, ?_, rfl, rfl, rfl⟩
    rw [countMissing_append]; simp

/-- Witness for C5: expected_next 2100, last_observed 2050; the duplicate
arm at s = 2050 and the reorder arm vacuously. -/
theorem detect_duplicate_reorder_effects_witness :
    (2050 = (2050 : Nat) →
       (detect_step ⟨2050, 0, 2100, 2, [], 0, 0⟩ 2050 0 50).duplicate_count = 0 + 1 ∧
       (detect_step ⟨2050, 0, 2100, 2, [], 0, 0⟩ 2050 0 50).loss_events = [] ++
         [{ expected_seq := 2100, received_seq := 2050,
            gap_size := 0, loss_type := .duplicateSequence }] ∧
       (detect_step ⟨2050, 0, 2100, 2, [], 0, 0⟩ 2050 0 50).out_of_order_count = 0 ∧
       countMissing (detect_step ⟨2050, 0, 2100, 2, [], 0, 0⟩ 2050 0 50).loss_events =
         countMissing [] ∧
       (detect_step ⟨2050, 0, 2100, 2, [], 0, 0⟩ 2050 0 50).expected_seq = 2100 ∧
       (detect_step ⟨2050, 0, 2100, 2, [], 0, 0⟩ 2050 0 50).last_seq = 2050 ∧
       (detect_step ⟨2050, 0, 2100, 2, [], 0, 0⟩ 2050 0 50).packet_count = 2 + 1) ∧
    (2050 ≠ (2050 : Nat) →
       (detect_step ⟨2050, 0, 2100, 2, [], 0, 0⟩ 2050 0 50).out_of_order_count = 0 + 1 ∧
       (detect_step ⟨2050, 0, 2100, 2, [], 0, 0⟩ 2050 0 50).loss_events = [] ++
         [{ expected_seq := 2100, received_seq := 2050,
            gap_size := 2100 - 2050, loss_type := .outOfOrder }] ∧
       (detect_step ⟨2050, 0, 2100, 2, [], 0, 0⟩ 2050 0 50).duplicate_count = 0 ∧
       countMissing (detect_step ⟨2050, 0, 2100, 2, [], 0, 0⟩ 2050 0 50).loss_events =
         countMissing [] ∧
       (detect_step ⟨2050, 0, 2100, 2, [], 0, 0⟩ 2050 0 50).expected_seq = 2100 ∧
       (detect_step ⟨2050, 0, 2100, 2, [], 0, 0⟩ 2050 0 50).last_seq = 2050 ∧
       (detect_step ⟨2050, 0, 2100, 2, [], 0, 0⟩ 2050 0 50).packet_count = 2 + 1) :=
  detect_duplicate_reorder_effects ⟨2050, 0, 2100, 2, [], 0, 0⟩ 2050 0 50
    (by decide) (by decide) (by decide)

/-- Counterexample to C6: with expected_next = 2^32 - 50 and
last_observed = 2^32 - 150, a segment with sequence 10 is later than
expected_next under the signed half-space rule (wrapped forward by 60),
but the plain u32 comparison of the code classifies it as out-of-order: no
missing-sequence event is recorded and expected_next is not resynchronized. -/
theorem seq_compare_not_halfspace :
    halfSpaceLater 10 4294967246 = true ∧
    detect_step ⟨4294967146, 0, 4294967246, 5, [], 0, 0⟩ 10 0 5 =
      ⟨4294967146, 0, 4294967246, 6,
       [{ expected_seq := 4294967246, received_seq := 10,
          gap_size := 4294967236, loss_type := .outOfOrder }], 1, 0⟩ ∧
    countMissing (detect_step ⟨4294967146, 0, 4294967246, 5, [], 0, 0⟩
      10 0 5).loss_events = 0 := by
  refine ⟨by decide, by decide, by decide⟩

/-- C6 as amended: every order comparison in the loss tracker is the plain
u32 unsigned comparison — a missing-sequence event appears exactly when
expected_next < s as integers (and the gap is under 1,000,000), the
duplicate and reorder branches fire exactly under s < expected_next,
and last_ack advances to max(last_ack, ack) — while the S6 wraparound
scenario is still classified in-order by the equality test: expected_next
2^32 - 50 with sequence 2^32 - 50 and payload 100 yields expected_next 50
and no event. -/
theorem detect_plain_u32_order (st : ConnectionState) (s a L : Nat)
    (hL : 0 < L) (hs : s < 2 ^ 32) (hex : st.expected_seq < 2 ^ 32) :
    (countMissing (detect_step st s a L).loss_events =
      countMissing st.loss_events +
        (if st.expected_seq < s ∧ s - st.expected_seq < 1000000 then 1 else 0)) ∧
    ((detect_step st s a L).duplicate_count =
      st.duplicate_count + (if s < st.expected_seq ∧ s = st.last_seq then 1 else 0)) ∧
    ((detect_step st s a L).out_of_order_count =
      st.out_of_order_count +
        (if s < st.expected_seq ∧ s ≠ st.last_seq then 1 else 0)) ∧
    ((detect_step st s a L).last_ack = max st.last_ack a) ∧
    (st.expected_seq = 2 ^ 32 - 50 → s = 2 ^ 32 - 50 → L = 100 →
      (detect_step st s a L).expected_seq = 50 ∧
      (detect_step st s a L).loss_events = st.loss_events) := by
  rcases Nat.lt_trichotomy s st.expected_seq with hlt | heq | hgt
  · have h1 : ¬ (st.expected_seq < s ∧ s - st.expected_seq < 1000000) := by omega
    rw [detect_step_old st s a L hL hlt hex]
    by_cases hdup : s = st.last_seq
    · rw [if_pos hdup]
      refine ⟨?_, ?_, ?_, rfl, ?_⟩
      · rw [countMissing_append]; simp [h1]
      · rw [if_pos ⟨hlt, hdup⟩]
      · rw [if_neg (fun hcon => hcon.2 hdup)]; simp
      · intro he hse _
        exact absurd hlt (by omega)
    · rw [if_neg hdup]
      refine ⟨?_, ?_, ?_, rfl, ?_⟩
      · rw [countMissing_append]; simp [h1]
      · rw [if_neg (fun hcon => hdup hcon.2)]; simp
      · rw [if_pos ⟨hlt, hdup⟩]
      · intro he hse _
        exact absurd hlt (by omega)
  · have h1 : ¬ (st.expected_seq < s ∧ s - st.expected_seq < 1000000) := by omega
    have h2 : ¬ (s < st.expected_seq ∧ s = st.last_seq) := by omega
    have h3 : ¬ (s < st.expected_seq ∧ s ≠ st.last_seq) := by omega
    rw [detect_step_inorder st s a L hL heq]
    refine ⟨by simp [h1], by simp [h2], by simp [h3], rfl, ?_⟩
    intro he hse hL100
    subst hse; subst hL100
    exact ⟨by show wadd (2 ^ 32 - 50) 100 = 50; decide, rfl⟩
  · have h2 : ¬ (s < st.expected_seq ∧ s = st.last_seq) := by omega
    have h3 : ¬ (s < st.expected_seq ∧ s ≠ st.last_seq) := by omega
    rw [detect_step_gap st s a L hL hgt hs]
    refine ⟨?_, by simp [h2], by simp [h3], rfl, ?_⟩
    · by_cases hless : s - st.expected_seq < 1000000
      · rw [if_pos hless, countMissing_append]
        simp [hgt, hless]
      · rw [if_neg hless]
        simp [hgt, hless]
    · intro he hse _
      exact absurd hgt (by omega)

/-- Witness for the amended C6 at a concrete state (expected 1000,
last_ack 0) and segment (sequence 1500, ack 3, payload 10). -/
theorem detect_plain_u32_order_witness :
    (countMissing (detect_step ⟨500, 0, 1000, 2, [], 0, 0⟩ 1500 3 10).loss_events =
      countMissing ([] : List PacketLossEvent) +
        (if 1000 < 1500 ∧ 1500 - 1000 < 1000000 then 1 else 0)) ∧
    ((detect_step ⟨500, 0, 1000, 2, [], 0, 0⟩ 1500 3 10).duplicate_count =
      0 + (if 1500 < 1000 ∧ (1500 : Nat) = 500 then 1 else 0)) ∧
    ((detect_step ⟨500, 0, 1000, 2, [], 0, 0⟩ 1500 3 10).out_of_order_count =
      0 + (if 1500 < 1000 ∧ (1500 : Nat) ≠ 500 then 1 else 0)) ∧
    ((detect_step ⟨500, 0, 1000, 2, [], 0, 0⟩ 1500 3 10).last_ack = max 0 3) ∧
    ((1000 : Nat) = 2 ^ 32 - 50 → (1500 : Nat) = 2 ^ 32 - 50 → (10 : Nat) = 100 →
      (detect_step ⟨500, 0, 1000, 2, [], 0, 0⟩ 1500 3 10).expected_seq = 50 ∧
      (detect_step ⟨500, 0, 1000, 2, [], 0, 0⟩ 1500 3 10).loss_events = []) :=
  detect_plain_u32_order ⟨500, 0, 1000, 2, [], 0, 0⟩ 1500 3 10
    (by decide) (by decide) (by decide)

theorem runFlow_some (segs : List (Nat × Nat)) : ∀ st : ConnectionState,
    segs.foldl (fun st? p => some (detect_packet_loss st? p.1 0 p.2)) (some st) =
      some (runSteps st segs) := by
  induction segs with
  | nil => intro st; rfl
  | cons hd tl ih =>
      intro st
      simpa [runSteps, detect_packet_loss] using ih (detect_step st hd.1 0 hd.2)

theorem detect_first_segment (s0 L1 : Nat) (hL : 0 < L1) (hb : s0 + L1 < 2 ^ 32) :
    detect_packet_loss none s0 0 L1 =
      { last_seq := s0, last_ack := 0, expected_seq := s0 + L1, packet_count := 1,
        loss_events := [{ expected_seq := s0 + L1, received_seq := s0,
                          gap_size := 0, loss_type := .duplicateSequence }],
        out_of_order_count := 0, duplicate_count := 1 } := by
  have hinit : ConnectionState.init s0 0 L1 =
      ⟨s0, 0, s0 + L1, 0, [], 0, 0⟩ := by
    simp [ConnectionState.init, Nat.max_eq_left hL, wadd_eq_of_lt hb]
  have hstep := detect_step_old ⟨s0, 0, s0 + L1, 0, [], 0, 0⟩ s0 0 L1 hL
    (by simp; omega) (by simpa using hb)
  rw [if_pos rfl] at hstep
  show detect_step ((none : Option ConnectionState).getD
    (ConnectionState.init s0 0 L1)) s0 0 L1 = _
  rw [Option.getD_none, hinit, hstep]
  simp

theorem runSteps_inorder_train (Ls : List Nat) : ∀ (s : Nat) (st : ConnectionState),
    st.expected_seq = s → (∀ L ∈ Ls, 0 < L) → s + Ls.sum < 2 ^ 32 →
    runSteps st (segsFrom s Ls) =
      { st with expected_seq := s + Ls.sum,
                last_seq := if Ls.isEmpty then st.last_seq else s + Ls.dropLast.sum,
                packet_count := st.packet_count + Ls.length } := by
  induction Ls with
  | nil =>
      intro s st hexp _ _
      simp [segsFrom, runSteps, ← hexp]
  | cons L rest ih =>
      intro s st hexp hpos hbound
      have hL : 0 < L := hpos L (by simp)
      have hsum : s + L < 2 ^ 32 := by
        simp only [List.sum_cons] at hbound
        omega
      have hbound2 : (s + L) + rest.sum < 2 ^ 32 := by
        simp only [List.sum_cons] at hbound
        omega
      have hstep := detect_step_inorder st s 0 L hL hexp.symm
      rw [Nat.max_eq_left (Nat.zero_le _)] at hstep
      have hrun : runSteps st (segsFrom s (L :: rest)) =
          runSteps (detect_step st s 0 L) (segsFrom (wadd s L) rest) := by
        simp [segsFrom, runSteps]
      rw [hrun, hstep, wadd_eq_of_lt hsum]
      rw [ih (s + L) _ rfl (fun x hx => hpos x (List.mem_cons_of_mem _ hx)) hbound2]
      cases rest with
      | nil => simp [ConnectionState.mk.injEq]
      | cons r rs =>
          simp [ConnectionState.mk.injEq, List.dropLast_cons₂, List.sum_cons]
          constructor <;> omega

/-- Counterexample to C3: a fresh flow fed a single in-order segment
(sequence 1000, payload 100) ends with duplicate_count = 1, not 0 — the
creating segment is immediately re-classified against the freshly
initialized state, whose last_observed equals its own sequence. -/
theorem runFlow_fresh_first_segment_duplicate :
    runFlow (segsFrom 1000 [100]) =
      some { last_seq := 1000, last_ack := 0, expected_seq := 1100,
             packet_count := 1,
             loss_events := [{ expected_seq := 1100, received_seq := 1000,
                               gap_size := 0,
                               loss_type := .duplicateSequence }],
             out_of_order_count := 0, duplicate_count := 1 } ∧
    (runFlow (segsFrom 1000 [100])).map (fun st => st.duplicate_count) ≠ some 0 := by
  refine ⟨by decide, by decide⟩

/-- C3 as amended: an in-order train of n positive-payload segments from a
fresh flow ends with expected_next = s0 + sum of the payloads,
last_observed at the sequence of the last segment, packet_count = n,
loss_count = reorder_count = 0, and duplicate_count = 1 — the single
duplicate being charged to the flow-creating first segment. -/
theorem runFlow_inorder_train_fresh (s0 : Nat) (Ls : List Nat)
    (hne : Ls ≠ []) (hpos : ∀ L ∈ Ls, 0 < L) (hbound : s0 + Ls.sum < 2 ^ 32) :
    ∃ st, runFlow (segsFrom s0 Ls) = some st ∧
      st.expected_seq = s0 + Ls.sum ∧
      st.last_seq = s0 + Ls.dropLast.sum ∧
      st.packet_count = Ls.length ∧
      countMissing st.loss_events = 0 ∧
      st.out_of_order_count = 0 ∧
      st.duplicate_count = 1 := by
  cases Ls with
  | nil => exact absurd rfl hne
  | cons L1 rest =>
      have hL1 : 0 < L1 := hpos L1 (by simp)
      have hsum : s0 + L1 < 2 ^ 32 := by
        simp only [List.sum_cons] at hbound
        omega
      have hbound2 : (s0 + L1) + rest.sum < 2 ^ 32 := by
        simp only [List.sum_cons] at hbound
        omega
      have hflow : runFlow (segsFrom s0 (L1 :: rest)) =
          some (runSteps (detect_packet_loss none s0 0 L1)
            (segsFrom (wadd s0 L1) rest)) := by
        simp only [segsFrom, runFlow, List.foldl_cons]
        exact runFlow_some _ _
      rw [detect_first_segment s0 L1 hL1 hsum, wadd_eq_of_lt hsum] at hflow
      rw [runSteps_inorder_train rest (s0 + L1) _ rfl
        (fun x hx => hpos x (List.mem_cons_of_mem _ hx)) hbound2] at hflow
      refine ⟨_, hflow, ?_, ?_, ?_, ?_, ?_, ?_⟩
      · simp [List.sum_cons]; omega
      · cases rest with
        | nil => simp
        | cons r rs =>
            simp [List.dropLast_cons₂, List.sum_cons]
            omega
      · simp <;> omega
      · simp [countMissing]
      · simp
      · simp

/-- Witness for the amended C3 on the two-segment train 1000/100, 1100/50. -/
theorem runFlow_inorder_train_fresh_witness :
    ∃ st, runFlow (segsFrom 1000 [100, 50]) = some st ∧
      st.expected_seq = 1000 + [100, 50].sum ∧
      st.last_seq = 1000 + ([100, 50] : List Nat).dropLast.sum ∧
      st.packet_count = ([100, 50] : List Nat).length ∧
      countMissing st.loss_events = 0 ∧
      st.out_of_order_count = 0 ∧
      st.duplicate_count = 1 :=
  runFlow_inorder_train_fresh 1000 [100, 50] (by decide)
    (by intro L hL; fin_cases hL <;> decide) (by decide)
